import Mathlib

/-!
Verification of the scan-result classification and report-assembly pipeline
of `src/security_scan.py` (VulnScan).

Strings are embedded as lists of characters (`Str`), so that the Python
substring operator `in` becomes the list-segment relation `<:+:` and
`str.split("\n")` becomes an explicit recursive split on the newline
character.  The report compositor `create_pdf` is embedded as a pure
function from the scan-results association list (Python dict in insertion
order), the scan-date string and a flag recording whether the optional
cover-image asset exists, to the ordered list of report pages, each an
ordered list of draw instructions.  Actual file I/O (nmap invocation,
font loading, saving the PDF) is outside the embedded core, as the spec
treats those as external collaborators.
-/

namespace VulnScan

/-- A Python string, embedded as its list of characters. -/
abbrev Str := List Char

/-- Line 7: the catalog of weak TLS/SSL cipher and protocol markers.
`WEAK_TLS_INDICATORS = ["SSLv2", "SSLv3", "TLSv1.0", "TLSv1.1", "EXP",
"LOW", "MEDIUM", "CBC", "RC4", "3DES"]`. -/
def WEAK_TLS_INDICATORS : List Str :=
  ["SSLv2".data, "SSLv3".data, "TLSv1.0".data, "TLSv1.1".data, "EXP".data,
   "LOW".data, "MEDIUM".data, "CBC".data, "RC4".data, "3DES".data]

/-- Line 35: the sentinel substituted when the scan produced no stdout:
`"No output or scan failed."`. -/
def FAILURE_SENTINEL : Str := "No output or scan failed.".data

/-- Line 35: `result.stdout if result.stdout else "No output or scan failed."` —
an empty stdout is replaced by the failure sentinel. -/
def scanOutcome (stdout : Str) : Str :=
  if stdout = [] then FAILURE_SENTINEL else stdout

/-- Python `output.split("\n")` specialised to the single-character
separator `"\n"`: splits into the (always non-empty) list of lines. -/
def splitLines : Str → List Str
  | [] => [[]]
  | c :: cs =>
    if c = '\n' then [] :: splitLines cs
    else
      match splitLines cs with
      | [] => [[c]]
      | l :: ls => (c :: l) :: ls

/-- Line 69/70/157: `any(weak in line for weak in WEAK_TLS_INDICATORS)` —
true iff the text contains at least one catalog marker as a
case-sensitive contiguous substring. -/
def hasWeakMarker (line : Str) : Bool :=
  WEAK_TLS_INDICATORS.any fun w => decide (w <:+: line)

/-- Line 70: `[line for line in output.split("\n") if any(weak in line for
weak in WEAK_TLS_INDICATORS)]` — the matched lines, in original order. -/
def matchedLines (output : Str) : List Str :=
  (splitLines output).filter fun l => hasWeakMarker l

/-- The two collections built by the classification loop, lines 67-72:
`strong_targets` (a list of target names) and `weak_targets` (a dict from
target to its matched lines, in insertion order, embedded as an
association list). -/
structure ClassifiedTargets where
  strong : List Str
  weak : List (Str × List Str)
deriving DecidableEq

/-- Lines 67-72: the classification loop over `scan_results.items()`.
Each target goes to `weak_targets` (with its matched lines) when its raw
output contains a catalog marker, otherwise to `strong_targets`; both
collections keep the input (dict insertion) order. -/
def classifyTargets : List (Str × Str) → ClassifiedTargets
  | [] => ⟨[], []⟩
  | (t, output) :: rest =>
    let r := classifyTargets rest
    if hasWeakMarker output then ⟨r.strong, (t, matchedLines output) :: r.weak⟩
    else ⟨t :: r.strong, r.weak⟩

/-- Line 101: `'TLS 1.0' in ''.join(weak_targets[t]) or 'RC4' in
''.join(weak_targets[t])` — the high-risk test on a weak target's joined
matched lines.  Note the probe string `"TLS 1.0"` (with a space), which
is not the catalog marker `"TLSv1.0"`. -/
def isHighRisk (issues : List Str) : Bool :=
  decide ("TLS 1.0".data <:+: issues.flatten) || decide ("RC4".data <:+: issues.flatten)

/-- Line 102: `'CBC' in ''.join(weak_targets[t])` — the medium-risk test
on a weak target's joined matched lines. -/
def isMediumRisk (issues : List Str) : Bool :=
  decide ("CBC".data <:+: issues.flatten)

/-- Line 101: `len([t for t in weak_targets if 'TLS 1.0' in ... or 'RC4' in ...])`. -/
def highRiskCount (weak : List (Str × List Str)) : Nat :=
  (weak.filter fun p => isHighRisk p.2).length

/-- Line 102: `len([t for t in weak_targets if 'CBC' in ...])`. -/
def mediumRiskCount (weak : List (Str × List Str)) : Nat :=
  (weak.filter fun p => isMediumRisk p.2).length

/-- Color names used by the drawing calls. -/
inductive Color
  | black
  | red
  | green
  | orange
deriving DecidableEq

/-- The three fonts loaded at lines 59-61 (title 50pt, header 35pt,
body 22pt). -/
inductive FontRole
  | title
  | header
  | body
deriving DecidableEq

/-- A single PIL drawing call: `draw.text((x, y), s, font, fill)`,
`draw.rectangle([a, b], fill=c)` or `draw.rectangle([a, b], outline=c,
width=w)`. -/
inductive Instr
  | text (pos : Nat × Nat) (s : Str) (font : FontRole) (fill : Color)
  | rectFill (a b : Nat × Nat) (c : Color)
  | rectOutline (a b : Nat × Nat) (c : Color) (width : Nat)
deriving DecidableEq

/-- The role of a page in the assembled document. -/
inductive PageRole
  | coverImage
  | cover
  | summary
  | detail
deriving DecidableEq

/-- One page of the report: its canvas size and its ordered draw
instructions. -/
structure Page where
  role : PageRole
  size : Nat × Nat
  instrs : List Instr
deriving DecidableEq

/-- Lines 49-53: the optional cover-image page, the asset resized to
1000×1454; it carries no draw instructions of its own. -/
def coverImagePage : Page :=
  { role := .coverImage, size := (1000, 1454), instrs := [] }

/-- Lines 74-105: the drawn cover page with title bars, report metadata
and the findings-summary counts. -/
def coverPage (scanDate : Str) (total strongCount weakCount highCount medCount : Nat) :
    Page :=
  { role := .cover
    size := (1000, 1400)
    instrs := [
      .rectFill (0, 0) (1000, 200) .black,
      .text (250, 80) "TLS/SSL Scan Report".data .title .red,
      .rectFill (0, 1250) (1000, 1400) .black,
      .text (300, 1300) "Confidential Security Report".data .header .red,
      .text (100, 300) "Prepared by: Security Team".data .header .black,
      .text (100, 350) ("Date: ".data ++ scanDate) .header .black,
      .text (100, 400) "Report ID: TLS-SEC-2025-001".data .header .black,
      .text (100, 500) "Scope: External TLS/SSL Security Assessment".data .header .black,
      .text (100, 550) "Assessment Methodology: Automated & Manual Verification".data .header .black,
      .text (100, 600) "Scanner Used: Nmap (ssl-enum-ciphers)".data .header .black,
      .text (100, 700) " Security Findings Summary:".data .header .red,
      .text (100, 750) ("• Number of Targets Scanned: ".data ++ (Nat.repr total).data) .body .black,
      .text (100, 800) ("• Targets with Strong Ciphers: ".data ++ (Nat.repr strongCount).data) .body .green,
      .text (100, 850) ("• Targets with Weak Ciphers: ".data ++ (Nat.repr weakCount).data) .body .red,
      .text (100, 900) ("• High-Risk Findings: ".data ++ (Nat.repr highCount).data) .body .red,
      .text (100, 950) ("• Medium-Risk Findings: ".data ++ (Nat.repr medCount).data) .body .orange,
      .text (100, 1000) "• Recommended Actions: Immediate Mitigation Required".data .body .black ] }

/-- Python whitespace for `str.strip()`. -/
def isPySpace (c : Char) : Bool :=
  c = ' ' || c = '\t' || c = '\n' || c = '\r' || c = '\x0b' || c = '\x0c'

/-- Python `s.strip()`: remove leading and trailing whitespace. -/
def pyStrip (s : Str) : Str :=
  ((s.dropWhile isPySpace).reverse.dropWhile isPySpace).reverse

/-- Lines 118-121: the strong-targets section body — one line `f" {target}"`
per strong target, the cursor advancing by 30 per line.  Returns the
instructions and the final cursor position. -/
def strongSection : List Str → Nat → List Instr × Nat
  | [], y => ([], y)
  | t :: rest, y =>
    let r := strongSection rest (y + 30)
    (.text (120, y) (' ' :: t) .body .black :: r.1, r.2)

/-- Lines 134-136: the indented, red matched lines of one weak target —
`f" {issue.strip()}"`, cursor +25 per line. -/
def issueSection : List Str → Nat → List Instr × Nat
  | [], y => ([], y)
  | i :: rest, y =>
    let r := issueSection rest (y + 25)
    (.text (140, y) (' ' :: pyStrip i) .body .red :: r.1, r.2)

/-- Lines 131-137: the weak-targets section body — per weak target a
`f" {target}:"` line (cursor +30), its issue lines, then cursor +20. -/
def weakSection : List (Str × List Str) → Nat → List Instr × Nat
  | [], y => ([], y)
  | (t, issues) :: rest, y =>
    let ri := issueSection issues (y + 30)
    let rr := weakSection rest (ri.2 + 20)
    (.text (120, y) ((' ' :: t) ++ ":".data) .body .black :: (ri.1 ++ rr.1), rr.2)

/-- Lines 107-141: the summary page.  The cursor starts at 150; the
strong header is drawn, then the strong section (or a none-found line),
then after +50 the weak header, then the weak section (or a none-found
line). -/
def summaryPage (ct : ClassifiedTargets) : Page :=
  let strongPart :=
    if ct.strong = [] then
      ([Instr.text (120, 200) " No strong cipher configurations found!".data .body .black], 230)
    else strongSection ct.strong 200
  let y1 := strongPart.2 + 50
  let weakPart :=
    if ct.weak = [] then
      [Instr.text (120, y1 + 50) " No weak configurations detected!".data .body .black]
    else (weakSection ct.weak (y1 + 50)).1
  { role := .summary
    size := (1000, 1400)
    instrs :=
      Instr.text (100, 150) " Strong Cipher Configuration:".data .header .black
        :: strongPart.1
        ++ Instr.text (100, y1) " Weak Ciphers/Protocols Detected:".data .header .black
        :: weakPart }

/-- Lines 152-162: the detail-page line loop.  The cursor starts at the
given position; before drawing a line the loop breaks if the cursor
exceeds 1300; a drawn line is red iff it contains a catalog marker, else
black; the cursor advances by 25. -/
def detailSection : List Str → Nat → List Instr
  | [], _ => []
  | line :: rest, y =>
    if y > 1300 then []
    else
      .text (70, y) line .body (if hasWeakMarker line then .red else .black)
        :: detailSection rest (y + 25)

/-- Lines 144-164: one detail page per target — a header, a bordered
content region, then the output lines starting at cursor 220. -/
def detailPage (target output : Str) : Page :=
  { role := .detail
    size := (1000, 1400)
    instrs :=
      Instr.text (100, 80) ("Scan Result for: ".data ++ target) .header .black
        :: Instr.rectOutline (50, 200) (950, 1350) .black 3
        :: detailSection (splitLines output) 220 }

/-- Lines 41-166: `create_pdf` as a pure page compositor.  `scanResults`
is the Python dict `scan_results` in insertion order; `coverAsset`
records whether the optional cover-image file exists (line 49).  The page
order is: optional cover image, drawn cover page, summary page, then one
detail page per target in input order.  Saving the PDF file is external
I/O and not part of the embedded value. -/
def create_pdf (scanResults : List (Str × Str)) (scanDate : Str) (coverAsset : Bool) :
    List Page :=
  let ct := classifyTargets scanResults
  (if coverAsset then [coverImagePage] else [])
    ++ [coverPage scanDate scanResults.length ct.strong.length ct.weak.length
          (highRiskCount ct.weak) (mediumRiskCount ct.weak),
        summaryPage ct]
    ++ scanResults.map fun p => detailPage p.1 p.2

/-! ## Helper lemmas about contiguous substrings and line splitting -/

/-- A leading segment of a list is in particular a contiguous segment. -/
theorem sub_of_pre {m l : Str} (h : m <+: l) : m <:+: l := by
  obtain ⟨t, ht⟩ := h
  exact ⟨[], t, ht⟩

/-- A contiguous segment of `l` is a contiguous segment of `c :: l`. -/
theorem sub_cons {m l : Str} {c : Char} (h : m <:+: l) : m <:+: c :: l := by
  obtain ⟨s, t, hst⟩ := h
  exact ⟨c :: s, t, by simp only [List.cons_append]; rw [hst]⟩

/-- Transitivity of the contiguous-segment relation. -/
theorem sub_trans {a b c : Str} (h₁ : a <:+: b) (h₂ : b <:+: c) : a <:+: c := by
  obtain ⟨s₁, t₁, e₁⟩ := h₁
  obtain ⟨s₂, t₂, e₂⟩ := h₂
  refine ⟨s₂ ++ s₁, t₁ ++ t₂, ?_⟩
  rw [← e₂, ← e₁]
  simp [List.append_assoc]

/-- A contiguous segment of `c :: cs` is a leading segment of `c :: cs`
or a contiguous segment of `cs`. -/
theorem sub_cons_cases {m cs : Str} {c : Char} (h : m <:+: c :: cs) :
    m <+: c :: cs ∨ m <:+: cs := by
  obtain ⟨s, t, hst⟩ := h
  cases s with
  | nil => exact Or.inl ⟨t, hst⟩
  | cons a s' =>
    simp only [List.cons_append] at hst
    injection hst with h1 h2
    exact Or.inr ⟨s', t, h2⟩

/-- A leading segment of `c :: cs` is empty or `c` followed by a leading
segment of `cs`. -/
theorem pre_cons_cases {m cs : Str} {c : Char} (h : m <+: c :: cs) :
    m = [] ∨ ∃ m', m = c :: m' ∧ m' <+: cs := by
  cases m with
  | nil => exact Or.inl rfl
  | cons b m' =>
    obtain ⟨t, ht⟩ := h
    simp only [List.cons_append] at ht
    injection ht with h1 h2
    exact Or.inr ⟨m', by rw [h1], ⟨t, h2⟩⟩

/-- `splitLines` always returns at least one line. -/
theorem splitLines_ne_nil (s : Str) : splitLines s ≠ [] := by
  cases s with
  | nil => simp [splitLines]
  | cons c cs =>
    simp only [splitLines]
    split
    · simp
    · split <;> simp

/-- The first line produced by `splitLines` is a leading segment of the
input. -/
theorem splitLines_head_pre :
    ∀ (s l : Str) (ls : List Str), splitLines s = l :: ls → l <+: s := by
  intro s
  induction s with
  | nil =>
    intro l ls h
    simp only [splitLines] at h
    injection h with h1 _
    exact h1 ▸ ⟨[], rfl⟩
  | cons c cs ih =>
    intro l ls h
    by_cases hc : c = '\n'
    · simp only [splitLines, if_pos hc] at h
      injection h with h1 _
      exact h1 ▸ ⟨c :: cs, rfl⟩
    · simp only [splitLines, if_neg hc] at h
      cases hsp : splitLines cs with
      | nil => exact absurd hsp (splitLines_ne_nil cs)
      | cons l₀ ls₀ =>
        rw [hsp] at h
        injection h with h1 _
        obtain ⟨t, ht⟩ := ih l₀ ls₀ hsp
        exact h1 ▸ ⟨t, by simp only [List.cons_append]; rw [ht]⟩

/-- Every line produced by `splitLines` is a contiguous segment of the
input. -/
theorem mem_splitLines_sub :
    ∀ (s l : Str), l ∈ splitLines s → l <:+: s := by
  intro s
  induction s with
  | nil =>
    intro l h
    simp only [splitLines, List.mem_singleton] at h
    subst h
    exact ⟨[], [], rfl⟩
  | cons c cs ih =>
    intro l h
    by_cases hc : c = '\n'
    · simp only [splitLines, if_pos hc, List.mem_cons] at h
      rcases h with h | h
      · exact h ▸ ⟨[], c :: cs, rfl⟩
      · exact sub_cons (ih l h)
    · simp only [splitLines, if_neg hc] at h
      cases hsp : splitLines cs with
      | nil => exact absurd hsp (splitLines_ne_nil cs)
      | cons l₀ ls₀ =>
        rw [hsp, List.mem_cons] at h
        rcases h with h | h
        · obtain ⟨t, ht⟩ := splitLines_head_pre cs l₀ ls₀ hsp
          exact h ▸ sub_of_pre ⟨t, by simp only [List.cons_append]; rw [ht]⟩
        · exact sub_cons (ih l (hsp ▸ List.mem_cons_of_mem l₀ h))

/-- A newline-free leading segment of the input is a leading segment of
the first line produced by `splitLines`. -/
theorem pre_splitLines_head :
    ∀ (s m l : Str) (ls : List Str),
      splitLines s = l :: ls → m <+: s → '\n' ∉ m → m <+: l := by
  intro s
  induction s with
  | nil =>
    intro m l ls hsp hm _
    obtain ⟨t, ht⟩ := hm
    obtain ⟨hm0, _⟩ := List.append_eq_nil.mp ht
    simp only [splitLines] at hsp
    injection hsp with h1 _
    exact hm0 ▸ h1 ▸ ⟨[], rfl⟩
  | cons c cs ih =>
    intro m l ls hsp hm hnl
    rcases pre_cons_cases hm with h0 | ⟨m', hm', hpre⟩
    · exact h0 ▸ ⟨l, by simp⟩
    · have hc : ¬ c = '\n' := by
        intro hc
        exact hnl (hm' ▸ (hc ▸ List.mem_cons_self c m'))
      simp only [splitLines, if_neg hc] at hsp
      cases hsp2 : splitLines cs with
      | nil => exact absurd hsp2 (splitLines_ne_nil cs)
      | cons l₀ ls₀ =>
        rw [hsp2] at hsp
        injection hsp with h1 _
        have hnl' : '\n' ∉ m' := fun h => hnl (hm' ▸ List.mem_cons_of_mem c h)
        obtain ⟨t, ht⟩ := ih m' l₀ ls₀ hsp2 hpre hnl'
        exact hm' ▸ h1 ▸ ⟨t, by simp only [List.cons_append]; rw [ht]⟩

/-- Completeness of line splitting for newline-free patterns: a
newline-free contiguous segment of the input lies inside one of the
split lines. -/
theorem sub_splitLines :
    ∀ (s m : Str), '\n' ∉ m → m <:+: s → ∃ l ∈ splitLines s, m <:+: l := by
  intro s
  induction s with
  | nil =>
    intro m _ hm
    obtain ⟨s', t, e⟩ := hm
    obtain ⟨e1, _⟩ := List.append_eq_nil.mp e
    obtain ⟨_, hm0⟩ := List.append_eq_nil.mp e1
    subst hm0
    exact ⟨[], by simp [splitLines], ⟨[], [], rfl⟩⟩
  | cons c cs ih =>
    intro m hnl hm
    rcases sub_cons_cases hm with hp | hs
    · cases hsp : splitLines (c :: cs) with
      | nil => exact absurd hsp (splitLines_ne_nil (c :: cs))
      | cons l ls =>
        exact ⟨l, List.mem_cons_self l ls,
          sub_of_pre (pre_splitLines_head (c :: cs) m l ls hsp hp hnl)⟩
    · obtain ⟨l, hl, hml⟩ := ih m hnl hs
      by_cases hc : c = '\n'
      · exact ⟨l, by simp only [splitLines, if_pos hc]; exact List.mem_cons_of_mem [] hl, hml⟩
      · cases hsp : splitLines cs with
        | nil => exact absurd hsp (splitLines_ne_nil cs)
        | cons l₀ ls₀ =>
          rw [hsp, List.mem_cons] at hl
          rcases hl with hl | hl
          · refine ⟨c :: l₀, ?_, sub_cons (hl ▸ hml)⟩
            simp only [splitLines, if_neg hc, hsp]
            exact List.mem_cons_self (c :: l₀) ls₀
          · refine ⟨l, ?_, hml⟩
            simp only [splitLines, if_neg hc, hsp]
            exact List.mem_cons_of_mem (c :: l₀) hl

/-- No catalog marker contains a newline character. -/
theorem markers_newline_free : ∀ w ∈ WEAK_TLS_INDICATORS, '\n' ∉ w := by decide

/-- `hasWeakMarker` spelled out as an existential over the catalog. -/
theorem hasWeakMarker_eq_true_iff (s : Str) :
    hasWeakMarker s = true ↔ ∃ w ∈ WEAK_TLS_INDICATORS, w <:+: s := by
  simp [hasWeakMarker, List.any_eq_true]

/-- The whole-output marker test (line 69) agrees with the existence of a
matching line (line 70): markers are newline-free, so a marker occurs in
the output iff it occurs in one of its lines. -/
theorem hasWeakMarker_iff_line (output : Str) :
    hasWeakMarker output = true ↔ ∃ l ∈ splitLines output, hasWeakMarker l = true := by
  constructor
  · intro h
    obtain ⟨w, hw, hsub⟩ := (hasWeakMarker_eq_true_iff output).mp h
    obtain ⟨l, hl, hml⟩ := sub_splitLines output w (markers_newline_free w hw) hsub
    exact ⟨l, hl, (hasWeakMarker_eq_true_iff l).mpr ⟨w, hw, hml⟩⟩
  · intro ⟨l, hl, h⟩
    obtain ⟨w, hw, hsub⟩ := (hasWeakMarker_eq_true_iff l).mp h
    exact (hasWeakMarker_eq_true_iff output).mpr
      ⟨w, hw, sub_trans hsub (mem_splitLines_sub output l hl)⟩

/-! ## Claim theorems -/

/-- C1: the classifier's verdict for a target is Weak (the target is
entered into `weak_targets`) iff at least one line of its raw output
contains at least one catalog marker; in the Weak case the recorded
matched-lines list is exactly the subsequence of output lines containing
a marker, in original order; otherwise the target is classified Strong
with no matched lines. -/
theorem verdict_weak_iff_matching_line (t output : Str) :
    ((classifyTargets [(t, output)]).weak ≠ [] ↔
      ∃ l ∈ splitLines output, hasWeakMarker l = true)
    ∧ ((∃ l ∈ splitLines output, hasWeakMarker l = true) →
        classifyTargets [(t, output)] =
          ⟨[], [(t, (splitLines output).filter fun l => hasWeakMarker l)]⟩)
    ∧ ((¬ ∃ l ∈ splitLines output, hasWeakMarker l = true) →
        classifyTargets [(t, output)] = ⟨[t], []⟩) := by
  by_cases hw : hasWeakMarker output = true
  · have hex := (hasWeakMarker_iff_line output).mp hw
    refine ⟨⟨fun _ => hex, fun _ => ?_⟩, fun _ => ?_, fun hne => absurd hex hne⟩
    · simp [classifyTargets, hw]
    · simp [classifyTargets, hw, matchedLines]
  · have hb : hasWeakMarker output = false := by simpa using hw
    have hnex : ¬ ∃ l ∈ splitLines output, hasWeakMarker l = true := fun hex =>
      hw ((hasWeakMarker_iff_line output).mpr hex)
    refine ⟨⟨fun hne => absurd ?_ hne, fun hex => absurd hex hnex⟩,
      fun hex => absurd hex hnex, fun _ => ?_⟩
    · simp [classifyTargets, hb]
    · simp [classifyTargets, hb]

/-- Witness: the classifier-verdict theorem applied to the spec's two
concrete scenarios (one weak target, one strong target). -/
theorem verdict_weak_iff_matching_line_witness :
    classifyTargets [("10.0.0.1".data, "TLSv1.0 enabled\nAES256-GCM strong".data)] =
      ⟨[], [("10.0.0.1".data, ["TLSv1.0 enabled".data])]⟩
    ∧ classifyTargets [("10.0.0.2".data, "TLS_AES_256_GCM_SHA384 preferred".data)] =
      ⟨["10.0.0.2".data], []⟩ := by
  constructor
  · exact ((verdict_weak_iff_matching_line _ _).2.1 (by decide)).trans (by decide)
  · exact (verdict_weak_iff_matching_line _ _).2.2 (by decide)

/-- C2: evaluating the code on the spec's concrete scenario
`{"10.0.0.1": "TLSv1.0 enabled\nAES256-GCM strong"}`: the target is
classified Weak with matched lines exactly `["TLSv1.0 enabled"]`, but
the High-Risk Findings count is 0 — line 101 probes the joined matched
lines for the substrings `"TLS 1.0"` (with a space) and `"RC4"`, not for
the legacy-protocol catalog markers, so `"TLSv1.0"` (and likewise
`"SSLv2"`, `"SSLv3"`, `"TLSv1.1"`) never triggers the High count. -/
theorem high_risk_misses_legacy_markers :
    (classifyTargets [("10.0.0.1".data, "TLSv1.0 enabled\nAES256-GCM strong".data)]).weak
      = [("10.0.0.1".data, ["TLSv1.0 enabled".data])]
    ∧ highRiskCount (classifyTargets
        [("10.0.0.1".data, "TLSv1.0 enabled\nAES256-GCM strong".data)]).weak = 0
    ∧ isHighRisk ["TLSv1.0 enabled".data] = false
    ∧ isHighRisk ["SSLv2 supported".data] = false
    ∧ isHighRisk ["TLSv1.1 offered".data] = false
    ∧ isHighRisk ["RC4 cipher accepted".data] = true := by
  refine ⟨?_, ?_, ?_, ?_, ?_, ?_⟩ <;> decide

/-- C3 counterexample: for the input `{"host": "RC4 CBC cipher"}` there
is a single weak target and it is counted in both the High-Risk and the
Medium-Risk findings counts, so the counts are not mutually exclusive. -/
theorem high_and_medium_counts_overlap :
    (classifyTargets [("host".data, "RC4 CBC cipher".data)]).weak.length = 1
    ∧ highRiskCount (classifyTargets [("host".data, "RC4 CBC cipher".data)]).weak = 1
    ∧ mediumRiskCount (classifyTargets [("host".data, "RC4 CBC cipher".data)]).weak = 1 := by
  refine ⟨?_, ?_, ?_⟩ <;> decide

/-- C3 amended: a weak target is counted in the Medium-Risk findings iff
its joined matched lines contain `"CBC"`, independently of whether the
High-Risk condition holds — the two counts are computed by independent
filters and may both count the same target. -/
theorem medium_risk_independent_of_high (rs : List (Str × Str)) (t : Str)
    (issues : List Str) (h : (t, issues) ∈ (classifyTargets rs).weak) :
    ((t, issues) ∈ (classifyTargets rs).weak.filter (fun p => isMediumRisk p.2) ↔
      "CBC".data <:+: issues.flatten) := by
  rw [List.mem_filter]
  simp [h, isMediumRisk]

/-- Witness: the Medium-Risk membership theorem at the overlap input,
where the High condition also holds. -/
theorem medium_risk_independent_of_high_witness :
    (("host".data, ["RC4 CBC cipher".data]) ∈
        (classifyTargets [("host".data, "RC4 CBC cipher".data)]).weak.filter
          (fun p => isMediumRisk p.2) ↔
      "CBC".data <:+: (["RC4 CBC cipher".data] : List Str).flatten) :=
  medium_risk_independent_of_high _ _ _ (by decide)

/-- C4 counterexample: a target whose output is the failure sentinel of
line 35 is classified Strong — it lands in `strong_targets` and
`weak_targets` stays empty, contradicting the claimed Weak verdict. -/
theorem sentinel_not_weak :
    classifyTargets [("10.0.0.9".data, FAILURE_SENTINEL)] =
      ⟨["10.0.0.9".data], []⟩ := by decide

/-- C4 amended: a target whose scan produced no usable output — the
failure sentinel substituted at line 35 for an empty stdout, or empty
text — contains no catalog marker and is therefore classified Strong,
with no matched lines and no risk tier recorded. -/
theorem no_output_classified_strong (t : Str) :
    classifyTargets [(t, FAILURE_SENTINEL)] = ⟨[t], []⟩
    ∧ classifyTargets [(t, [])] = ⟨[t], []⟩
    ∧ scanOutcome [] = FAILURE_SENTINEL := by
  have h1 : hasWeakMarker FAILURE_SENTINEL = false := by decide
  have h2 : hasWeakMarker [] = false := by decide
  exact ⟨by simp [classifyTargets, h1], by simp [classifyTargets, h2], rfl⟩

/-- C5: the classification loop places every target in exactly one of
`strong_targets` and `weak_targets`, so the cover-page counts satisfy
strong + weak = total, for every input mapping including the empty one. -/
theorem strong_add_weak_eq_total (scanResults : List (Str × Str)) :
    (classifyTargets scanResults).strong.length
      + (classifyTargets scanResults).weak.length = scanResults.length := by
  induction scanResults with
  | nil => rfl
  | cons p rest ih =>
    obtain ⟨t, output⟩ := p
    by_cases hw : hasWeakMarker output = true
    · simp only [classifyTargets, hw, if_true, List.length_cons]
      omega
    · simp only [classifyTargets, hw, if_false, List.length_cons]
      simp only [Bool.not_eq_true] at hw
      simp [hw, List.length_cons]
      omega

/-- C6: on the empty target list, composition is well-defined and
produces exactly two pages — the drawn cover page with all findings
counts zero, then the summary page — and no detail pages (the optional
cover-image asset being absent). -/
theorem empty_input_two_pages (scanDate : Str) :
    create_pdf [] scanDate false =
      [coverPage scanDate 0 0 0 0 0, summaryPage ⟨[], []⟩]
    ∧ (create_pdf [] scanDate false).length = 2
    ∧ (create_pdf [] scanDate false).map Page.role
        = [PageRole.cover, PageRole.summary] :=
  ⟨rfl, rfl, rfl⟩

/-- Color of a drawn detail line: red iff the line contains a catalog
marker, else black (lines 157-160). -/
theorem detailSection_color (ls : List Str) :
    ∀ (y₀ : Nat) (pos : Nat × Nat) (s : Str) (f : FontRole) (c : Color),
      Instr.text pos s f c ∈ detailSection ls y₀ →
      (c = Color.red ↔ hasWeakMarker s = true) := by
  induction ls with
  | nil =>
    intro y₀ pos s f c h
    simp [detailSection] at h
  | cons l rest ih =>
    intro y₀ pos s f c h
    by_cases hy : y₀ > 1300
    · simp [detailSection, hy] at h
    · simp only [detailSection, if_neg hy, List.mem_cons] at h
      rcases h with h | h
      · injection h with h1 h2 h3 h4
        subst h2
        subst h4
        cases hlw : hasWeakMarker s <;> simp [hlw]
      · exact ih (y₀ + 25) pos s f c h

/-- C7: composition emits exactly one detail page per target, in the
order of the input scan-results mapping (the detail-role pages are
exactly the map of `detailPage` over the input), and on a detail page
every rendered body-font text line is red iff it contains a catalog
marker, else black. -/
theorem one_detail_page_per_target (rs : List (Str × Str)) (scanDate : Str)
    (asset : Bool) :
    ((create_pdf rs scanDate asset).filter fun p => decide (p.role = PageRole.detail))
      = rs.map (fun p => detailPage p.1 p.2)
    ∧ ∀ (target output : Str) (pos : Nat × Nat) (s : Str) (c : Color),
        Instr.text pos s FontRole.body c ∈ (detailPage target output).instrs →
        (c = Color.red ↔ hasWeakMarker s = true) := by
  constructor
  · simp only [create_pdf]
    rw [List.filter_append, List.filter_append]
    have h1 : ((if asset then [coverImagePage] else []).filter
        fun p => decide (p.role = PageRole.detail)) = [] := by
      cases asset <;> rfl
    have h2 : (([coverPage scanDate rs.length (classifyTargets rs).strong.length
          (classifyTargets rs).weak.length (highRiskCount (classifyTargets rs).weak)
          (mediumRiskCount (classifyTargets rs).weak), summaryPage (classifyTargets rs)]).filter
        fun p => decide (p.role = PageRole.detail)) = [] := rfl
    have h3 : ((rs.map fun p => detailPage p.1 p.2).filter
        fun p => decide (p.role = PageRole.detail)) = rs.map fun p => detailPage p.1 p.2 := by
      rw [List.filter_eq_self]
      intro a ha
      obtain ⟨x, _, rfl⟩ := List.mem_map.mp ha
      rfl
    rw [h1, h2, h3]
    rfl
  · intro target output pos s c h
    simp only [detailPage, List.mem_cons] at h
    rcases h with h | h | h
    · injection h with _ _ h3 _
      exact absurd h3 (by simp)
    · exact Instr.noConfusion h
    · exact detailSection_color (splitLines output) 220 pos s FontRole.body c h

/-- Witness: the detail-page theorem at a one-target input whose single
output line contains the marker RC4 and is drawn red. -/
theorem one_detail_page_per_target_witness :
    ((create_pdf [("host".data, "RC4".data)] "2025-01-01".data false).filter
        fun p => decide (p.role = PageRole.detail))
      = [detailPage "host".data "RC4".data]
    ∧ (Color.red = Color.red ↔ hasWeakMarker "RC4".data = true) := by
  have h := one_detail_page_per_target [("host".data, "RC4".data)] "2025-01-01".data false
  exact ⟨h.1, h.2 "host".data "RC4".data (70, 220) "RC4".data Color.red (by decide)⟩

set_option maxRecDepth 100000 in
/-- C8: detail-page rendering truncates silently — every drawn line
instruction sits at a cursor position at most 1300 (the loop breaks
before drawing past the safe lower bound, and never continues onto a new
page); in particular a 200-line all-non-matching output is cut to the 44
renderable lines and the document is still composed without error. -/
theorem rendering_truncates_silently :
    (∀ (ls : List Str) (y₀ : Nat) (pos : Nat × Nat) (s : Str) (f : FontRole) (c : Color),
        Instr.text pos s f c ∈ detailSection ls y₀ → pos.2 ≤ 1300)
    ∧ (splitLines (List.intercalate "\n".data (List.replicate 200 "x".data))).length = 200
    ∧ (detailSection
        (splitLines (List.intercalate "\n".data (List.replicate 200 "x".data))) 220).length = 44
    ∧ (create_pdf [("host".data, List.intercalate "\n".data (List.replicate 200 "x".data))]
        "2025-01-01".data false).length = 3 := by
  refine ⟨?_, by decide, by decide, by decide⟩
  intro ls
  induction ls with
  | nil =>
    intro y₀ pos s f c h
    simp [detailSection] at h
  | cons l rest ih =>
    intro y₀ pos s f c h
    by_cases hy : y₀ > 1300
    · simp [detailSection, hy] at h
    · simp only [detailSection, if_neg hy, List.mem_cons] at h
      rcases h with h | h
      · injection h with h1 _ _ _
        rw [h1]
        omega
      · exact ih (y₀ + 25) pos s f c h

/-- Witness: the truncation-safety theorem at a concrete one-line
rendering. -/
theorem rendering_truncates_silently_witness : (70, 220).2 ≤ 1300 :=
  rendering_truncates_silently.1 ["x".data] 220 (70, 220) "x".data
    FontRole.body Color.black (by decide)

/-- C9: composition and classification are deterministic — two runs on
equal scan-result mappings, equal supplied timestamp strings and equal
cover-asset availability produce identical page draw-instruction
sequences, and classifying the same mapping twice yields identical
classified results; no other state enters the computation. -/
theorem composition_deterministic (rs₁ rs₂ : List (Str × Str))
    (d₁ d₂ : Str) (a₁ a₂ : Bool) (hr : rs₁ = rs₂) (hd : d₁ = d₂) (ha : a₁ = a₂) :
    create_pdf rs₁ d₁ a₁ = create_pdf rs₂ d₂ a₂
    ∧ classifyTargets rs₁ = classifyTargets rs₂ := by
  subst hr; subst hd; subst ha
  exact ⟨rfl, rfl⟩

/-- Witness: determinism at a concrete input. -/
theorem composition_deterministic_witness :
    create_pdf [("host".data, "RC4".data)] "2025-01-01".data false
      = create_pdf [("host".data, "RC4".data)] "2025-01-01".data false
    ∧ classifyTargets [("host".data, "RC4".data)]
      = classifyTargets [("host".data, "RC4".data)] :=
  composition_deterministic _ _ _ _ _ _ rfl rfl rfl

/-- The number of lines drawn from cursor position `y₀` is bounded by
`(1325 - y₀) / 25`. -/
theorem detailSection_length_bound (ls : List Str) :
    ∀ y₀ : Nat, (detailSection ls y₀).length ≤ (1325 - y₀) / 25 := by
  induction ls with
  | nil => intro y₀; simp [detailSection]
  | cons l rest ih =>
    intro y₀
    by_cases hy : y₀ > 1300
    · simp [detailSection, hy]
    · simp only [detailSection, if_neg hy, List.length_cons]
      have h1 := ih (y₀ + 25)
      have h2 : 1325 - (y₀ + 25) = 1300 - y₀ := by omega
      have h3 : 1325 - y₀ = (1300 - y₀) + 25 := by omega
      rw [h2] at h1
      rw [h3, Nat.add_div_right _ (by norm_num)]
      omega

/-- Lines beyond index `(1325 - y₀) / 25` are never examined by the
renderer: the drawn instructions only depend on that leading chunk. -/
theorem detailSection_take (ls : List Str) :
    ∀ (y₀ n : Nat), (1325 - y₀) / 25 ≤ n →
      detailSection ls y₀ = detailSection (ls.take n) y₀ := by
  induction ls with
  | nil => intro y₀ n _; rw [List.take_nil]
  | cons l rest ih =>
    intro y₀ n hn
    by_cases hy : y₀ > 1300
    · cases n with
      | zero => simp [detailSection, hy]
      | succ m => simp [detailSection, hy]
    · have h1 : 1 ≤ (1325 - y₀) / 25 := by
        rw [Nat.le_div_iff_mul_le (by norm_num)]
        omega
      cases n with
      | zero => omega
      | succ m =>
        simp only [List.take_succ_cons]
        simp only [detailSection, if_neg hy]
        congr 1
        apply ih (y₀ + 25) m
        have h2 : 1325 - (y₀ + 25) = 1300 - y₀ := by omega
        have h3 : 1325 - y₀ = (1300 - y₀) + 25 := by omega
        rw [h3, Nat.add_div_right _ (by norm_num)] at hn
        rw [h2]
        omega

/-- C10: a detail page renders at most 44 output lines — the cursor
starts at 220 and advances by 25, the loop breaks before drawing once
the cursor exceeds 1300, so only lines 0..43 can be drawn and lines of
the raw output beyond the 44th never appear on any detail page. -/
theorem detail_page_at_most_44_lines (output : Str) :
    (detailSection (splitLines output) 220).length ≤ 44
    ∧ detailSection (splitLines output) 220
        = detailSection ((splitLines output).take 44) 220 := by
  constructor
  · have h := detailSection_length_bound (splitLines output) 220
    norm_num at h
    exact h
  · exact detailSection_take (splitLines output) 220 44 (by norm_num)

end VulnScan
